import Mathlib

/-!
Verification development for `valokuvakokoelma.py`, a content-addressed
photo-catalog builder.  The Python source is shallowly embedded below:

* file contents are byte lists (`List Nat`, reduced mod 256 where consumed);
* the filesystem is an oracle `FS : String → Option (List Nat)` mapping a
  path string to the bytes of a readable regular file (`none` models a path
  that does not resolve to a regular file);
* catalog writes go through an oracle `WriteOracle : Path → Bool`
  (`false` models an `OSError` while opening/writing the file);
* Python exceptions are explicit `Exc` values threaded by the orchestrator
  model, mirroring exactly which `try/except` clause of the script catches
  which exception class;
* `pathlib` paths are component lists (`Path := List String`); joining with
  an empty string drops the component, as `pathlib` does.

Machine integers of the hashing code are `Nat` with explicit `% 2 ^ 32`.
-/

/-- Python paths, as their component lists (relative to the fs root). -/
abbrev PyPath := List String

/-- The `pathlib` `/` operator: empty components are dropped on joining. -/
def pathJoin (p : PyPath) (c : String) : PyPath :=
  if c = "" then p else p ++ [c]

/-- The constant `DB_OUT_ROOT = pathlib.Path.home() / 'Pictures' / 'describe'`; the home
directory is an environment value, modelled as the component `"HOME"`. -/
def DB_OUT_ROOT : PyPath := ["HOME", "Pictures", "describe"]

/-- The list `KINDS.values()` of the source dict (insertion order CLONE, LIVTO,
PHOTO, VIDEO). -/
def KINDS_values : List String := ["clone", "livto", "photo", "video"]

/-- The Python slice `s[:2]`. -/
def pyTake2 (s : String) : String := String.mk (s.data.take 2)

/-! ## SHA-256 (`hashlib.sha256` + `hexdigest`)

A complete executable SHA-256 over byte lists.  The source streams the file
in `BUFFER_BYTES` chunks into one running `hashlib.sha256` object, which is
semantically the hash of the whole byte stream; the model hashes the whole
content directly. -/

/-- Truncation to a 32-bit word. -/
def w32 (n : Nat) : Nat := n % 4294967296

/-- 32-bit modular addition. -/
def add32 (a b : Nat) : Nat := w32 (a + b)

/-- 32-bit right rotation by `k`. -/
def rotr (k n : Nat) : Nat := w32 ((n >>> k) ||| (n <<< (32 - k)))

/-- The choice function `Ch` of SHA-256. -/
def shaCh (x y z : Nat) : Nat :=
  (x &&& y) ^^^ ((x ^^^ 4294967295) &&& z)

/-- The majority function `Maj` of SHA-256. -/
def shaMaj (x y z : Nat) : Nat :=
  ((x &&& y) ^^^ (x &&& z)) ^^^ (y &&& z)

/-- The big sigma-0 function of SHA-256. -/
def bigSigma0 (n : Nat) : Nat := rotr 2 n ^^^ rotr 13 n ^^^ rotr 22 n

/-- The big sigma-1 function of SHA-256. -/
def bigSigma1 (n : Nat) : Nat := rotr 6 n ^^^ rotr 11 n ^^^ rotr 25 n

/-- The small sigma-0 function of SHA-256. -/
def smallSigma0 (n : Nat) : Nat := rotr 7 n ^^^ rotr 18 n ^^^ (n >>> 3)

/-- The small sigma-1 function of SHA-256. -/
def smallSigma1 (n : Nat) : Nat := rotr 17 n ^^^ rotr 19 n ^^^ (n >>> 10)

/-- The 64 SHA-256 round constants of FIPS 180-4, written in decimal. -/
def shaK : List Nat :=
  [1116352408, 1899447441, 3049323471, 3921009573, 961987163, 1508970993,
   2453635748, 2870763221, 3624381080, 310598401, 607225278, 1426881987,
   1925078388, 2162078206, 2614888103, 3248222580, 3835390401, 4022224774,
   264347078, 604807628, 770255983, 1249150122, 1555081692, 1996064986,
   2554220882, 2821834349, 2952996808, 3210313671, 3336571891, 3584528711,
   113926993, 338241895, 666307205, 773529912, 1294757372, 1396182291,
   1695183700, 1986661051, 2177026350, 2456956037, 2730485921, 2820302411,
   3259730800, 3345764771, 3516065817, 3600352804, 4094571909, 275423344,
   430227734, 506948616, 659060556, 883997877, 958139571, 1322822218,
   1537002063, 1747873779, 1955562222, 2024104815, 2227730452, 2361852424,
   2428436474, 2756734187, 3204031479, 3329325298]

/-- SHA-256 working state: eight 32-bit words. -/
structure ShaState where
  a : Nat
  b : Nat
  c : Nat
  d : Nat
  e : Nat
  f : Nat
  g : Nat
  h : Nat
deriving DecidableEq

/-- The SHA-256 initial hash value of FIPS 180-4, written in decimal. -/
def shaH0 : ShaState :=
  ⟨1779033703, 3144134277, 1013904242, 2773480762,
   1359893119, 2600822924, 528734635, 1541459225⟩

/-- One step of message-schedule extension; `racc` holds the schedule so far,
most recent word first. -/
def stepW (racc : List Nat) : Nat :=
  add32 (add32 (smallSigma1 (racc.getD 1 0)) (racc.getD 6 0))
        (add32 (smallSigma0 (racc.getD 14 0)) (racc.getD 15 0))

/-- Extend the message schedule `n` more words. -/
def extendW : Nat → List Nat → List Nat
  | 0, racc => racc
  | n + 1, racc => extendW n (stepW racc :: racc)

/-- The 64-word message schedule of one 16-word block. -/
def buildW (block : List Nat) : List Nat := (extendW 48 block.reverse).reverse

/-- One SHA-256 round for round constant/schedule pair `kw`. -/
def shaRound (st : ShaState) (kw : Nat × Nat) : ShaState :=
  let t1 := add32 st.h (add32 (bigSigma1 st.e) (add32 (shaCh st.e st.f st.g) (add32 kw.1 kw.2)))
  let t2 := add32 (bigSigma0 st.a) (shaMaj st.a st.b st.c)
  ⟨add32 t1 t2, st.a, st.b, st.c, add32 st.d t1, st.e, st.f, st.g⟩

/-- Compress one 16-word block into the hash state. -/
def shaCompress (st : ShaState) (block : List Nat) : ShaState :=
  let fin := (shaK.zip (buildW block)).foldl shaRound st
  ⟨add32 st.a fin.a, add32 st.b fin.b, add32 st.c fin.c, add32 st.d fin.d,
   add32 st.e fin.e, add32 st.f fin.f, add32 st.g fin.g, add32 st.h fin.h⟩

/-- The bit length of the message, as 8 big-endian bytes. -/
def lengthBytes (bits : Nat) : List Nat :=
  [bits >>> 56 % 256, bits >>> 48 % 256, bits >>> 40 % 256, bits >>> 32 % 256,
   bits >>> 24 % 256, bits >>> 16 % 256, bits >>> 8 % 256, bits % 256]

/-- SHA-256 padding: `0x80`, zeros to 56 mod 64, then the 64-bit bit length. -/
def padBytes (m : List Nat) : List Nat :=
  m ++ [0x80] ++ List.replicate ((119 - m.length % 64) % 64) 0 ++ lengthBytes (8 * m.length)

/-- Pack bytes into big-endian 32-bit words (input length a multiple of 4). -/
def bytesToWords : List Nat → List Nat
  | b0 :: b1 :: b2 :: b3 :: rest =>
      (((b0 % 256) <<< 24) ||| ((b1 % 256) <<< 16) ||| ((b2 % 256) <<< 8) ||| (b3 % 256))
        :: bytesToWords rest
  | _ => []

/-- Fold the compression function over all 16-word blocks; `fuel` bounds the
recursion (any fuel at least the word count is enough). -/
def shaBlocksGo : Nat → ShaState → List Nat → ShaState
  | 0, st, _ => st
  | _ + 1, st, [] => st
  | fuel + 1, st, ws => shaBlocksGo fuel (shaCompress st (ws.take 16)) (ws.drop 16)

/-- SHA-256 of a byte list, as the final eight-word state. -/
def sha256Words (m : List Nat) : ShaState :=
  let ws := bytesToWords (padBytes m)
  shaBlocksGo ws.length shaH0 ws

/-- A 32-bit word as 4 big-endian bytes. -/
def wordToBytes (w : Nat) : List Nat :=
  [w >>> 24 % 256, w >>> 16 % 256, w >>> 8 % 256, w % 256]

/-- The 32 digest bytes. -/
def digestBytes (m : List Nat) : List Nat :=
  let s := sha256Words m
  wordToBytes s.a ++ wordToBytes s.b ++ wordToBytes s.c ++ wordToBytes s.d ++
  wordToBytes s.e ++ wordToBytes s.f ++ wordToBytes s.g ++ wordToBytes s.h

/-- The sixteen lowercase hex digits, as the characters of the usual
digit string. -/
def hexDigits : List Char := "0123456789abcdef".data

/-- Hex digit character for a nibble. -/
def hexChar (n : Nat) : Char := hexDigits.getD n '0'

/-- A byte as two lowercase hex characters. -/
def byteHex (b : Nat) : List Char := [hexChar (b / 16 % 16), hexChar (b % 16)]

/-- The source function `sha256sum`: SHA-256 hexdigest of the content a path holds
(the source reads the file in `BUFFER_BYTES` chunks into one running hash,
i.e. it hashes the full byte stream). -/
def sha256sum (content : List Nat) : String :=
  String.mk ((digestBytes content).map byteHex).flatten

set_option maxRecDepth 20000 in
/-- Sanity check of the SHA-256 embedding against the FIPS 180-4 test
vector for the empty message. -/
theorem sha256sum_empty_vector :
    sha256sum [] = "e3b0c44298fc1c149afbf4c8996fb92427ae41e4649b934ca495991b7852b855" := by
  decide

/-! ## The `Labels` accumulator (`Labels.update`, `Labels.dump`)

The Python dict `to_refs` (string keys, list-of-string values, insertion
ordered, unique keys) is embedded as an insertion-ordered association list.
`updateLabel` is the body of the outer `for label in labels` loop:
`if label not in to_refs: to_refs[label] = []` followed by appending every
ref not already present — on an association list with unique keys this is
update-in-place if the key is present, else append a fresh entry. -/

abbrev LabelsMap := List (String × List String)

/-- Append `r` unless already present (`if ref not in to_refs[label]`). -/
def addRef (rs : List String) (r : String) : List String :=
  if r ∈ rs then rs else rs ++ [r]

/-- The inner `for ref in refs` loop. -/
def addRefs (rs refs : List String) : List String := refs.foldl addRef rs

/-- One iteration of the outer `for label in labels` loop. -/
def updateLabel (refs : List String) : LabelsMap → String → LabelsMap
  | [], label => [(label, addRefs [] refs)]
  | (k, rs) :: rest, label =>
      if k = label then (k, addRefs rs refs) :: rest
      else (k, rs) :: updateLabel refs rest label

/-- The method `Labels.update(refs, labels)`: a no-op unless both lists are truthy
(non-empty). -/
def Labels.update (m : LabelsMap) (refs labels : List String) : LabelsMap :=
  if labels ≠ [] ∧ refs ≠ [] then labels.foldl (updateLabel refs) m else m

/-- Dict lookup `to_refs[label]` (first matching key; keys are unique). -/
def refsOf : LabelsMap → String → List String
  | [], _ => []
  | (k, rs) :: rest, l => if k = l then rs else refsOf rest l

/-- Lexicographic string sort (Python's `sorted` / `list.sort`), as a
sorted permutation. -/
def sortStrs (l : List String) : List String :=
  l.insertionSort (· ≤ ·)

/-- The method `Labels.dump`: rebuild the dict over sorted keys
(`{k: to_refs[k] for k in sorted(to_refs)}`), sort each reference list, and
serialize.  `json.dump` renders this ordered structure injectively, so the
serialized bytes are determined by (and determine) this value. -/
def Labels.dumpModel (m : LabelsMap) : LabelsMap :=
  (sortStrs (m.map Prod.fst)).map (fun k => (k, sortStrs (refsOf m k)))

/-- A sequence of `update` calls, applied to the initially empty index. -/
def applyUpdates (cs : List (List String × List String)) : LabelsMap :=
  cs.foldl (fun m c => Labels.update m c.1 c.2) []

/-- The (label, reference) associations a sequence of `update` calls
observes: the cross product of each call's labels and refs, when both are
non-empty. -/
def assocPairs (cs : List (List String × List String)) : List (String × String) :=
  cs.flatMap (fun c =>
    if c.2 ≠ [] ∧ c.1 ≠ [] then c.2.flatMap (fun l => c.1.map (fun r => (l, r))) else [])

/-! ## The `Medium` record pipeline -/

/-- A raw input record, with the fields the source reads via
`media_entry.get`; a field the record lacks is `none` (flags) or the
`get` default `''` / `[]`.  The opaque passthrough payload is the record
itself: persistence writes the full record back out. -/
structure RawRecord where
  isphoto : Option Bool := none
  ismovie : Option Bool := none
  screenshot : Option Bool := none
  ismissing : Option Bool := none
  iscloudasset : Option Bool := none
  path : String := ""
  path_live_photo : String := ""
  labels : List String := []
deriving DecidableEq

/-- Python truthiness of an optional boolean field: only `True` is truthy
(`None` and `False` are falsy). -/
def truthy : Option Bool → Bool
  | some true => true
  | _ => false

/-- The diagnostic messages the source appends to `self.messages`, by tag. -/
inductive Msg where
  | warningMetaNone (ndx : Nat)
  | outOfSync (ndx : Nat)
  | isMissing (ndx : Nat)
  | pointsTo (ndx : Nat) (species : Option String) (name : String)
  | hasLiveMovie (name : String)
  | contentRep (rep : String)
  | liveRep (rep : String)
deriving DecidableEq

/-- The mutable state of one `Medium` instance. -/
structure MediumState where
  ndx : Nat
  is_photo : Option Bool
  is_video : Option Bool
  is_screenshot : Option Bool
  species : Option String := none
  is_missing : Option Bool
  is_cloudasset : Option Bool
  path_str : String
  path_live_photo : String
  error : Bool := false
  error_detail : String := ""
  messages : List Msg := []
  content_rep : String := ""
  live_rep : String := ""
  refs : List String := []
deriving DecidableEq

/-- The field initializations at the top of `Medium.__init__`. -/
def initFields (ndx : Nat) (rec : RawRecord) : MediumState :=
  { ndx := ndx
    is_photo := rec.isphoto
    is_video := rec.ismovie
    is_screenshot := rec.screenshot
    is_missing := rec.ismissing
    is_cloudasset := rec.iscloudasset
    path_str := rec.path
    path_live_photo := rec.path_live_photo }

/-- The method `Medium._validate`. -/
def Medium.validateStep (st : MediumState) : MediumState :=
  if truthy st.is_photo = false ∧ truthy st.is_video = false then
    { st with error := true, error_detail := "is neither photo nor video" }
  else
    let st := { st with species := some (if truthy st.is_photo then "photo" else "video") }
    let st := if truthy st.is_screenshot then { st with species := some "clone" } else st
    let st :=
      if st.is_video = none ∨ st.is_photo = none ∨ st.is_screenshot = none ∨
          st.is_missing = none ∨ st.is_cloudasset = none then
        { st with messages := st.messages ++ [Msg.warningMetaNone st.ndx] }
      else st
    let st :=
      if truthy st.is_missing then
        if truthy st.is_cloudasset then
          { st with messages := st.messages ++ [Msg.outOfSync st.ndx] }
        else
          { st with messages := st.messages ++ [Msg.isMissing st.ndx] }
      else st
    if st.path_str = "" then
      { st with error := true, error_detail := "IGNORE_EMPTY_PATH" }
    else st

/-- The method `_validate` run on a freshly initialized record, as in `__init__`. -/
def validated (ndx : Nat) (rec : RawRecord) : MediumState :=
  Medium.validateStep (initFields ndx rec)

/-- The filesystem: a path string resolves to the bytes of a readable
regular file, or to nothing. -/
abbrev FS := String → Option (List Nat)

/-- The method `Medium._hash_content`.  Here `pathlib.Path` objects are always truthy, so
the guard `not self.path_to_medium or not ...is_file()` is just the
`is_file` check. -/
def Medium.hashContent (fs : FS) (st : MediumState) : MediumState :=
  match fs st.path_str with
  | none => { st with error := true, error_detail := "path not found for entry" }
  | some content =>
    let st := { st with messages := st.messages ++ [Msg.pointsTo st.ndx st.species st.path_str] }
    let st :=
      if st.path_live_photo ≠ "" then
        { st with messages := st.messages ++ [Msg.hasLiveMovie st.path_live_photo] }
      else st
    let rep := sha256sum content
    if rep = "" then { st with error := true, error_detail := "no content rep" }
    else { st with content_rep := rep }

/-- The method `Medium._hash_live`.  Dead code: no call site exists anywhere in the
source, so `live_rep` is never set.  (Were it called on an unreadable
companion, `open` inside `sha256sum` would raise an uncaught `OSError`;
the readable case is modelled here.) -/
def Medium.hashLive (fs : FS) (st : MediumState) : MediumState :=
  if st.path_live_photo ≠ "" then
    match fs st.path_live_photo with
    | none => st
    | some content =>
      let rep := sha256sum content
      if rep = "" then { st with error := true, error_detail := "no live rep" }
      else { st with live_rep := rep }
  else st

/-- Python's rendering of the species field into the reference f-string
(`None` prints as `"None"`; after a successful validation it is the species
string). -/
def speciesStr (st : MediumState) : String := st.species.getD "None"

/-- The reference string `f'{kind}:{rep[:2]}/{rep}'`. -/
def mkRef (kind rep : String) : String := kind ++ ":" ++ pyTake2 rep ++ "/" ++ rep

/-- The whole of `Medium.__init__`: initialize, validate, and unless a hard
validation error occurred, hash the primary content, build the reference
list, and register it with the labels accumulator.  (`_hash_live` is never
invoked, so no `livto` reference can arise.)  Returns the constructed state
and the updated accumulator. -/
def mediumInit (fs : FS) (ndx : Nat) (rec : RawRecord) (lab : LabelsMap) :
    MediumState × LabelsMap :=
  let st := validated ndx rec
  if st.error then (st, lab)
  else
    let st := Medium.hashContent fs st
    let st :=
      if st.content_rep ≠ "" then
        { st with refs := st.refs ++ [mkRef (speciesStr st) st.content_rep] }
      else st
    let st :=
      if st.live_rep ≠ "" then
        { st with refs := st.refs ++ [mkRef "livto" st.live_rep] }
      else st
    (st, Labels.update lab st.refs rec.labels)

/-! ## Address resolution and persistence -/

/-- The shard path `DB_OUT_ROOT / kind / rep[:2] / f'{rep}.json'`. -/
def mkPath (kind rep : String) : PyPath :=
  pathJoin (pathJoin (pathJoin DB_OUT_ROOT kind) (pyTake2 rep)) (rep ++ ".json")

/-- The function `hash_to_path`: raises `ValueError` (modelled as `.error`) for a kind
outside `KINDS.values()`; otherwise derives the sharded catalog path (the
`mkdir` of the shard directory is idempotent and not part of the value). -/
def hash_to_path (kind rep : String) : Except String PyPath :=
  if kind ∈ KINDS_values then .ok (mkPath kind rep)
  else .error ("unknown kind=" ++ kind ++ " for rep=" ++ rep)

/-- The Python exceptions the orchestrator can see escape a record's
processing. -/
inductive Exc where
  | valErr (detail : String)
  | runErr (detail : String)
  | osErr (p : PyPath)
deriving DecidableEq

/-- The write oracle: whether opening/writing a catalog file at a path
succeeds (`false` models an `OSError` raised by the filesystem). -/
abbrev WriteOracle := PyPath → Bool

/-- The method `Medium.dump` = `_dump` plus the final `raise RuntimeError` when the
error flag is set.  `_dump` runs unconditionally: it resolves the primary
address from the current `species`/`content_rep` (raising `ValueError`
inside `hash_to_path` when the species is `None`), writes the record body
there, and if `path_live_photo` is non-empty writes the record body again
at the `livto` address of `live_rep`.  Returns the state (messages grow),
the files written, and the escaping exception, if any. -/
def Medium.dumpStep (wok : WriteOracle) (st : MediumState) (rec : RawRecord) :
    MediumState × List (PyPath × RawRecord) × Option Exc :=
  let st := { st with messages := st.messages ++ [Msg.contentRep st.content_rep] }
  match hash_to_path (speciesStr st) st.content_rep with
  | .error e => (st, [], some (.valErr e))
  | .ok p =>
    if wok p then
      if st.path_live_photo ≠ "" then
        let st := { st with messages := st.messages ++ [Msg.liveRep st.live_rep] }
        match hash_to_path "livto" st.live_rep with
        | .error e => (st, [(p, rec)], some (.valErr e))
        | .ok p2 =>
          if wok p2 then
            (st, [(p, rec), (p2, rec)],
             if st.error then some (.runErr st.error_detail) else none)
          else (st, [(p, rec)], some (.osErr p2))
      else
        (st, [(p, rec)], if st.error then some (.runErr st.error_detail) else none)
    else (st, [], some (.osErr p))

/-! ## The orchestrator (the module-level `for` loop) -/

/-- The observable outcome of a run: the in-memory accumulator, the catalog
files written (in write order; a later write to the same path wins), the
serialized `labels.json` when the loop completed, and the uncaught
exception when it did not. -/
structure RunResult where
  labeling : LabelsMap
  files : List (PyPath × RawRecord)
  labels_json : Option LabelsMap
  aborted : Option Exc
deriving DecidableEq

/-- The `for number, thing in enumerate(db, start=1)` loop.  Constructing a
`Medium` raises no `ValueError` (the `validate` method that would is never
called), so the first `try/except ValueError` never fires.  `medium.dump()`
is guarded only by `except RuntimeError`: a `RuntimeError` is reported and
the loop continues; a `ValueError` or `OSError` escaping `dump` is uncaught
and aborts the whole run.  After the last record, `labeling.dump` writes
`labels.json`. -/
def mainLoop (fs : FS) (wok : WriteOracle) :
    Nat → LabelsMap → List (PyPath × RawRecord) → List RawRecord → RunResult
  | _, lab, files, [] =>
      { labeling := lab, files := files,
        labels_json := some (Labels.dumpModel lab), aborted := none }
  | n, lab, files, rec :: rest =>
      let (st, lab') := mediumInit fs n rec lab
      let (_, newFiles, exc) := Medium.dumpStep wok st rec
      match exc with
      | some (.runErr _) => mainLoop fs wok (n + 1) lab' (files ++ newFiles) rest
      | some e =>
          { labeling := lab', files := files ++ newFiles,
            labels_json := none, aborted := some e }
      | none => mainLoop fs wok (n + 1) lab' (files ++ newFiles) rest

/-- A full run over the parsed input array. -/
def runModel (fs : FS) (wok : WriteOracle) (db : List RawRecord) : RunResult :=
  mainLoop fs wok 1 [] [] db

/-! ## Concrete fixtures used by the per-claim evaluations -/

/-- A filesystem with two readable files: an empty `/a.jpg` and a one-byte
`/a.mov`. -/
def fsAB : FS := fun p =>
  if p = "/a.jpg" then some [] else if p = "/a.mov" then some [0x61] else none

/-- A filesystem with no readable files. -/
def fsNone : FS := fun _ => none

/-- A write oracle on which every catalog write succeeds. -/
def wokAll : WriteOracle := fun _ => true

/-- A write oracle on which every catalog write raises `OSError`. -/
def wokFail : WriteOracle := fun _ => false

/-! ## Helper lemmas: the labels accumulator -/

/-- Well-formedness of the accumulator, as `Labels.update` maintains it
from the empty dict: unique keys, duplicate-free and non-empty reference
lists. -/
def LabWF (m : LabelsMap) : Prop :=
  (m.map Prod.fst).Nodup ∧ (∀ p ∈ m, p.2.Nodup) ∧ (∀ p ∈ m, p.2 ≠ [])

theorem mem_addRef {rs : List String} {r x : String} :
    x ∈ addRef rs r ↔ x ∈ rs ∨ x = r := by
  unfold addRef
  split
  · constructor
    · exact .inl
    · rintro (h | rfl) <;> assumption
  · simp

theorem addRef_nodup {rs : List String} (h : rs.Nodup) (r : String) :
    (addRef rs r).Nodup := by
  unfold addRef
  split
  · exact h
  · simpa [List.nodup_append] using ⟨h, by assumption⟩

theorem mem_addRefs {refs : List String} :
    ∀ {rs x}, x ∈ addRefs rs refs ↔ x ∈ rs ∨ x ∈ refs := by
  induction refs with
  | nil => simp [addRefs]
  | cons r rest ih =>
      intro rs x
      show x ∈ addRefs (addRef rs r) rest ↔ _
      rw [ih, mem_addRef]
      simp only [List.mem_cons]
      tauto

theorem addRefs_nodup {refs : List String} :
    ∀ {rs}, rs.Nodup → (addRefs rs refs).Nodup := by
  induction refs with
  | nil => exact fun h => h
  | cons r rest ih => exact fun h => ih (addRef_nodup h r)

theorem addRefs_ne_nil {rs refs : List String} (h : refs ≠ []) :
    addRefs rs refs ≠ [] := by
  rcases refs with _ | ⟨r, rest⟩
  · exact absurd rfl h
  · intro hnil
    have : r ∈ addRefs rs (r :: rest) := mem_addRefs.mpr (.inr (.head rest))
    rw [hnil] at this
    exact List.not_mem_nil r this

theorem refsOf_updateLabel (refs : List String) (m : LabelsMap) (label l : String) :
    refsOf (updateLabel refs m label) l =
      if l = label then addRefs (refsOf m label) refs else refsOf m l := by
  induction m with
  | nil =>
      by_cases h : l = label
      · subst h
        simp [updateLabel, refsOf]
      · simp [updateLabel, refsOf, h, Ne.symm h]
  | cons p rest ih =>
      obtain ⟨k, rs⟩ := p
      by_cases hk : k = label
      · subst hk
        by_cases hl : l = k
        · subst hl
          simp [updateLabel, refsOf]
        · simp [updateLabel, refsOf, hl, Ne.symm hl]
      · by_cases hl : l = k
        · subst hl
          simp [updateLabel, refsOf, hk]
        · simp [updateLabel, refsOf, hk, hl, Ne.symm hl, ih]

theorem keys_updateLabel (refs : List String) (m : LabelsMap) (label : String) :
    (updateLabel refs m label).map Prod.fst =
      if label ∈ m.map Prod.fst then m.map Prod.fst else m.map Prod.fst ++ [label] := by
  induction m with
  | nil => simp [updateLabel]
  | cons p rest ih =>
      obtain ⟨k, rs⟩ := p
      by_cases hk : k = label
      · subst hk
        simp [updateLabel]
      · simp only [updateLabel, if_neg hk, List.map_cons, List.mem_cons]
        rw [ih]
        by_cases hmem : label ∈ rest.map Prod.fst
        · simp [hmem, Ne.symm hk]
        · simp [hmem, Ne.symm hk]

theorem labWF_updateLabel {m : LabelsMap} {refs : List String} (hrefs : refs ≠ [])
    (h : LabWF m) (label : String) : LabWF (updateLabel refs m label) := by
  obtain ⟨hkeys, hnd, hne⟩ := h
  induction m with
  | nil =>
      refine ⟨by simp [updateLabel], ?_, ?_⟩
      · intro p hp
        simp only [updateLabel, List.mem_singleton] at hp
        rw [hp]
        exact addRefs_nodup List.nodup_nil
      · intro p hp
        simp only [updateLabel, List.mem_singleton] at hp
        rw [hp]
        exact addRefs_ne_nil hrefs
  | cons q rest ih =>
      obtain ⟨k, rs⟩ := q
      by_cases hk : k = label
      · subst hk
        refine ⟨by simpa [updateLabel] using hkeys, ?_, ?_⟩
        · intro p hp
          simp only [updateLabel, if_pos] at hp
          rcases List.mem_cons.mp hp with heq | hp
          · rw [heq]
            exact addRefs_nodup (hnd _ (List.mem_cons_self _ _))
          · exact hnd _ (List.mem_cons_of_mem _ hp)
        · intro p hp
          simp only [updateLabel, if_pos] at hp
          rcases List.mem_cons.mp hp with heq | hp
          · rw [heq]
            exact addRefs_ne_nil hrefs
          · exact hne _ (List.mem_cons_of_mem _ hp)
      · have hkeys' : (rest.map Prod.fst).Nodup := (List.nodup_cons.mp hkeys).2
        have hk' : k ∉ rest.map Prod.fst := (List.nodup_cons.mp hkeys).1
        have ihh := ih hkeys' (fun p hp => hnd p (List.mem_cons_of_mem _ hp))
          (fun p hp => hne p (List.mem_cons_of_mem _ hp))
        obtain ⟨ih1, ih2, ih3⟩ := ihh
        refine ⟨?_, ?_, ?_⟩
        · simp only [updateLabel, if_neg hk, List.map_cons, List.nodup_cons]
          refine ⟨?_, ih1⟩
          rw [keys_updateLabel]
          split
          · exact hk'
          · simp only [List.mem_append, List.mem_singleton]
            rintro (hc | hc)
            · exact hk' hc
            · exact hk hc
        · intro p hp
          simp only [updateLabel, if_neg hk] at hp
          rcases List.mem_cons.mp hp with heq | hp
          · rw [heq]
            exact hnd _ (List.mem_cons_self _ _)
          · exact ih2 p hp
        · intro p hp
          simp only [updateLabel, if_neg hk] at hp
          rcases List.mem_cons.mp hp with heq | hp
          · rw [heq]
            exact hne _ (List.mem_cons_self _ _)
          · exact ih3 p hp

theorem refsOf_foldl (refs : List String) (labels : List String) :
    ∀ (m : LabelsMap) (l x : String),
      x ∈ refsOf (labels.foldl (updateLabel refs) m) l ↔
        x ∈ refsOf m l ∨ (l ∈ labels ∧ x ∈ refs) := by
  induction labels with
  | nil => simp
  | cons lb rest ih =>
      intro m l x
      show x ∈ refsOf (rest.foldl (updateLabel refs) (updateLabel refs m lb)) l ↔ _
      rw [ih, refsOf_updateLabel]
      by_cases hl : l = lb
      · subst hl
        simp [mem_addRefs]
        tauto
      · simp [hl, Ne.symm hl]

theorem labWF_foldl {refs : List String} (hrefs : refs ≠ []) (labels : List String) :
    ∀ {m : LabelsMap}, LabWF m → LabWF (labels.foldl (updateLabel refs) m) := by
  induction labels with
  | nil => exact fun h => h
  | cons lb rest ih => exact fun h => ih (labWF_updateLabel hrefs h lb)

theorem mem_refsOf_update {m : LabelsMap} {refs labels : List String} {l x : String} :
    x ∈ refsOf (Labels.update m refs labels) l ↔
      x ∈ refsOf m l ∨ (labels ≠ [] ∧ refs ≠ [] ∧ l ∈ labels ∧ x ∈ refs) := by
  unfold Labels.update
  split
  · rw [refsOf_foldl]
    rename_i hg
    tauto
  · rename_i hg
    tauto

theorem labWF_update {m : LabelsMap} (refs labels : List String) (h : LabWF m) :
    LabWF (Labels.update m refs labels) := by
  unfold Labels.update
  split
  · rename_i hg
    exact labWF_foldl hg.2 labels h
  · exact h

theorem labWF_nil : LabWF [] := ⟨List.nodup_nil, by simp, by simp⟩

theorem labWF_applyUpdates_aux (cs : List (List String × List String)) :
    ∀ {m : LabelsMap}, LabWF m → LabWF (cs.foldl (fun m c => Labels.update m c.1 c.2) m) := by
  induction cs with
  | nil => exact fun h => h
  | cons c rest ih => exact fun h => ih (labWF_update c.1 c.2 h)

theorem labWF_applyUpdates (cs : List (List String × List String)) :
    LabWF (applyUpdates cs) :=
  labWF_applyUpdates_aux cs labWF_nil

theorem mem_assocPairs {cs : List (List String × List String)} {l x : String} :
    (l, x) ∈ assocPairs cs ↔
      ∃ c ∈ cs, c.2 ≠ [] ∧ c.1 ≠ [] ∧ l ∈ c.2 ∧ x ∈ c.1 := by
  unfold assocPairs
  rw [List.mem_flatMap]
  constructor
  · rintro ⟨c, hc, hmem⟩
    refine ⟨c, hc, ?_⟩
    split at hmem
    · rename_i hg
      simp only [List.mem_flatMap, List.mem_map] at hmem
      obtain ⟨lb, hlb, r, hr, heq⟩ := hmem
      have hfst : lb = l := congrArg Prod.fst heq
      have hsnd : r = x := congrArg Prod.snd heq
      subst hfst
      subst hsnd
      exact ⟨hg.1, hg.2, hlb, hr⟩
    · simp at hmem
  · rintro ⟨c, hc, h2, h1, hl, hx⟩
    refine ⟨c, hc, ?_⟩
    rw [if_pos ⟨h2, h1⟩]
    simp only [List.mem_flatMap, List.mem_map]
    exact ⟨l, hl, x, hx, rfl⟩

theorem mem_refsOf_applyUpdates_aux (cs : List (List String × List String)) :
    ∀ (m : LabelsMap) (l x : String),
      x ∈ refsOf (cs.foldl (fun m c => Labels.update m c.1 c.2) m) l ↔
        x ∈ refsOf m l ∨ (l, x) ∈ assocPairs cs := by
  induction cs with
  | nil => simp [assocPairs]
  | cons c rest ih =>
      intro m l x
      show x ∈ refsOf (rest.foldl _ (Labels.update m c.1 c.2)) l ↔ _
      rw [ih, mem_refsOf_update]
      have : (l, x) ∈ assocPairs (c :: rest) ↔
          ((c.2 ≠ [] ∧ c.1 ≠ [] ∧ l ∈ c.2 ∧ x ∈ c.1) ∨ (l, x) ∈ assocPairs rest) := by
        rw [mem_assocPairs]
        simp only [List.mem_cons]
        rw [mem_assocPairs]
        constructor
        · rintro ⟨d, rfl | hd, h⟩
          · exact .inl h
          · exact .inr ⟨d, hd, h⟩
        · rintro (h | ⟨d, hd, h⟩)
          · exact ⟨c, .inl rfl, h⟩
          · exact ⟨d, .inr hd, h⟩
      rw [this]
      tauto

theorem mem_refsOf_applyUpdates {cs : List (List String × List String)} {l x : String} :
    x ∈ refsOf (applyUpdates cs) l ↔ (l, x) ∈ assocPairs cs := by
  unfold applyUpdates
  rw [mem_refsOf_applyUpdates_aux]
  simp [refsOf]

theorem refsOf_nodup {m : LabelsMap} (h : LabWF m) (l : String) :
    (refsOf m l).Nodup := by
  induction m with
  | nil => exact List.nodup_nil
  | cons p rest ih =>
      obtain ⟨k, rs⟩ := p
      unfold refsOf
      split
      · exact h.2.1 _ (List.mem_cons_self _ _)
      · exact ih ⟨(List.nodup_cons.mp h.1).2,
          fun q hq => h.2.1 q (List.mem_cons_of_mem _ hq),
          fun q hq => h.2.2 q (List.mem_cons_of_mem _ hq)⟩

theorem mem_keys_iff {m : LabelsMap} (h : LabWF m) (l : String) :
    l ∈ m.map Prod.fst ↔ refsOf m l ≠ [] := by
  induction m with
  | nil => simp [refsOf]
  | cons p rest ih =>
      obtain ⟨k, rs⟩ := p
      have htail : LabWF rest := ⟨(List.nodup_cons.mp h.1).2,
        fun q hq => h.2.1 q (List.mem_cons_of_mem _ hq),
        fun q hq => h.2.2 q (List.mem_cons_of_mem _ hq)⟩
      by_cases hk : k = l
      · subst hk
        simp only [List.map_cons, List.mem_cons, refsOf, if_pos rfl]
        have : rs ≠ [] := h.2.2 (k, rs) (List.mem_cons_self _ _)
        simp [this]
      · simp only [List.map_cons, List.mem_cons, refsOf, if_neg hk]
        rw [ih htail]
        simp [Ne.symm hk]

theorem sortStrs_eq {l₁ l₂ : List String} (h₁ : l₁.Nodup) (h₂ : l₂.Nodup)
    (hm : ∀ s, s ∈ l₁ ↔ s ∈ l₂) : sortStrs l₁ = sortStrs l₂ := by
  have hp : l₁.Perm l₂ := (List.perm_ext_iff_of_nodup h₁ h₂).mpr hm
  have hperm : (sortStrs l₁).Perm (sortStrs l₂) :=
    ((List.perm_insertionSort _ l₁).trans hp).trans (List.perm_insertionSort _ l₂).symm
  exact List.eq_of_perm_of_sorted hperm
    (List.sorted_insertionSort _ l₁) (List.sorted_insertionSort _ l₂)

theorem dumpModel_eq_of_refsOf {m₁ m₂ : LabelsMap} (h₁ : LabWF m₁) (h₂ : LabWF m₂)
    (h : ∀ l x, x ∈ refsOf m₁ l ↔ x ∈ refsOf m₂ l) :
    Labels.dumpModel m₁ = Labels.dumpModel m₂ := by
  have hrefs : ∀ l, refsOf m₁ l = [] ↔ refsOf m₂ l = [] := by
    intro l
    rw [List.eq_nil_iff_forall_not_mem, List.eq_nil_iff_forall_not_mem]
    constructor
    · intro hn x hx
      exact hn x ((h l x).mpr hx)
    · intro hn x hx
      exact hn x ((h l x).mp hx)
  have hkeys : sortStrs (m₁.map Prod.fst) = sortStrs (m₂.map Prod.fst) := by
    refine sortStrs_eq h₁.1 h₂.1 ?_
    intro s
    rw [mem_keys_iff h₁, mem_keys_iff h₂]
    have := hrefs s
    tauto
  unfold Labels.dumpModel
  rw [hkeys]
  refine List.map_congr_left ?_
  intro k _
  have : sortStrs (refsOf m₁ k) = sortStrs (refsOf m₂ k) :=
    sortStrs_eq (refsOf_nodup h₁ k) (refsOf_nodup h₂ k) (h k)
  rw [this]

/-! ## Helper lemmas: digest shape -/

theorem hexChar_mem (n : Nat) : hexChar n ∈ hexDigits := by
  by_cases h : n < 16
  · interval_cases n <;> decide
  · unfold hexChar
    have hlen : hexDigits.length = 16 := rfl
    rw [List.getD_eq_default _ _ (by omega)]
    decide

theorem flatten_byteHex_length (bs : List Nat) :
    ((bs.map byteHex).flatten).length = 2 * bs.length := by
  induction bs with
  | nil => simp
  | cons b rest ih =>
      simp only [List.map_cons, List.flatten_cons, List.length_append, ih, byteHex]
      simp
      ring

theorem mem_flatten_byteHex {bs : List Nat} {c : Char}
    (h : c ∈ (bs.map byteHex).flatten) : c ∈ hexDigits := by
  induction bs with
  | nil => simp at h
  | cons b rest ih =>
      simp only [List.map_cons, List.flatten_cons, List.mem_append] at h
      rcases h with h | h
      · simp only [byteHex, List.mem_cons, List.not_mem_nil, or_false] at h
        rcases h with rfl | rfl <;> exact hexChar_mem _
      · exact ih h

theorem digestBytes_length (content : List Nat) : (digestBytes content).length = 32 := by
  simp [digestBytes, wordToBytes]

theorem sha256sum_data (content : List Nat) :
    (sha256sum content).data = ((digestBytes content).map byteHex).flatten := rfl

theorem sha256sum_length (content : List Nat) : (sha256sum content).data.length = 64 := by
  rw [sha256sum_data, flatten_byteHex_length, digestBytes_length]

theorem sha256sum_ne_empty (content : List Nat) : sha256sum content ≠ "" := by
  intro h
  have := congrArg (fun s : String => s.data.length) h
  simp only [sha256sum_length] at this
  exact absurd this (by decide)

theorem pyTake2_ne_empty {s : String} (h : s ≠ "") : pyTake2 s ≠ "" := by
  rcases hs : s.data with _ | ⟨c, cs⟩
  · exact absurd (String.ext_iff.mpr (by simp [hs])) h
  · intro hc
    have hdata : (pyTake2 s).data = [] := by rw [hc]
    simp [pyTake2, hs] at hdata

theorem append_json_ne_empty (rep : String) : rep ++ ".json" ≠ "" := by
  intro h
  rw [String.ext_iff] at h
  simp [String.data_append] at h

/-! ## Claim theorems -/

/-- Claim C9: for every readable file, `sha256sum` returns a non-empty
64-character lowercase hexadecimal string, so the defensive `no content rep`
(`EmptyDigest`) branch after primary hashing is unreachable whenever the
file was successfully read: `_hash_content` on a readable path leaves the
error flag and detail untouched. -/
theorem C9_digest_wellformed (content : List Nat) (fs : FS) (st : MediumState) :
    (sha256sum content).data.length = 64 ∧
    sha256sum content ≠ "" ∧
    (∀ c ∈ (sha256sum content).data, c ∈ hexDigits) ∧
    (fs st.path_str = some content →
      (Medium.hashContent fs st).error = st.error ∧
      (Medium.hashContent fs st).error_detail = st.error_detail) := by
  refine ⟨sha256sum_length content, sha256sum_ne_empty content, ?_, ?_⟩
  · intro c hc
    rw [sha256sum_data] at hc
    exact mem_flatten_byteHex hc
  · intro hfs
    unfold Medium.hashContent
    rw [hfs]
    simp only [if_neg (sha256sum_ne_empty content)]
    by_cases hl : st.path_live_photo ≠ ""
    · rw [if_pos hl]
      exact ⟨rfl, rfl⟩
    · rw [if_neg hl]
      exact ⟨rfl, rfl⟩

/-- The filesystem fixture for the C9 witness: a single readable empty
file. -/
def fsW9 : FS := fun p => if p = "/w9.jpg" then some [] else none

/-- The medium-state fixture for the C9 witness. -/
def stW9 : MediumState := initFields 7 { isphoto := some true, path := "/w9.jpg" }

/-- Witness for C9: the readable-file hypothesis discharged at a concrete
file. -/
theorem C9_digest_wellformed_witness :
    fsW9 stW9.path_str = some [] ∧ (Medium.hashContent fsW9 stW9).error = stW9.error :=
  ⟨rfl, ((C9_digest_wellformed [] fsW9 stW9).2.2.2 rfl).1⟩

/-- Claim C6: `hash_to_path` fails with the unknown-kind `ValueError` iff
the kind is not one of photo/video/clone/livto, and on a known kind it
deterministically yields `DB_OUT_ROOT/kind/rep[:2]/rep.json`. -/
theorem C6_resolver_contract (kind rep : String) (hrep : rep ≠ "") :
    ((hash_to_path kind rep).isOk = true ↔
      (kind = "photo" ∨ kind = "video" ∨ kind = "clone" ∨ kind = "livto")) ∧
    ((kind = "photo" ∨ kind = "video" ∨ kind = "clone" ∨ kind = "livto") →
      hash_to_path kind rep =
        .ok ["HOME", "Pictures", "describe", kind, pyTake2 rep, rep ++ ".json"]) := by
  have hmem : kind ∈ KINDS_values ↔
      (kind = "photo" ∨ kind = "video" ∨ kind = "clone" ∨ kind = "livto") := by
    simp only [KINDS_values, List.mem_cons, List.not_mem_nil, or_false]
    tauto
  constructor
  · rw [← hmem]
    unfold hash_to_path
    by_cases hk : kind ∈ KINDS_values
    · simp [hk, Except.isOk, Except.toBool]
    · simp [hk, Except.isOk, Except.toBool]
  · intro h
    have hk : kind ∈ KINDS_values := hmem.mpr h
    have h1 : kind ≠ "" := by
      rcases h with rfl | rfl | rfl | rfl <;> decide
    unfold hash_to_path mkPath pathJoin
    rw [if_pos hk, if_neg h1, if_neg (pyTake2_ne_empty hrep), if_neg (append_json_ne_empty rep)]
    rfl

/-- Witness for C6 at kind `photo` and a concrete digest. -/
theorem C6_resolver_contract_witness :
    ("ab12" ≠ "") ∧
    (((hash_to_path "photo" "ab12").isOk = true ↔
       ("photo" = "photo" ∨ "photo" = "video" ∨ "photo" = "clone" ∨ "photo" = "livto")) ∧
     (("photo" = "photo" ∨ "photo" = "video" ∨ "photo" = "clone" ∨ "photo" = "livto") →
       hash_to_path "photo" "ab12" =
         .ok ["HOME", "Pictures", "describe", "photo", pyTake2 "ab12", "ab12" ++ ".json"])) :=
  ⟨by decide, C6_resolver_contract "photo" "ab12" (by decide)⟩

/-- The record of the C4 counterexample: both `isphoto` and `ismovie` true,
not a screenshot. -/
def recC4 : RawRecord :=
  { isphoto := some true, ismovie := some true, screenshot := some false,
    ismissing := some false, iscloudasset := some false, path := "/both.mov" }

/-- Counterexample to C4 as stated: on a record with `ismovie = true` (and
`isphoto = true`), the code assigns species `photo`, not `video` — the
source computes `PHOTO if is_photo else VIDEO`, so `isphoto` wins. -/
theorem C4_counterexample :
    (validated 1 recC4).species = some "photo" ∧
    (validated 1 recC4).species ≠ some "video" := by
  decide

/-- Claim C4 (amended): for a record passing the media check, the species is
photo when `isphoto` is truthy and video otherwise (so `isphoto` takes
precedence over `ismovie`), and a truthy `screenshot` overrides either to
clone; in particular `screenshot=true, isphoto=true` is classified clone. -/
theorem C4_species_assignment (ndx : Nat) (rec : RawRecord)
    (h : truthy rec.isphoto = true ∨ truthy rec.ismovie = true) :
    (validated ndx rec).species =
      some (if truthy rec.screenshot then "clone"
            else if truthy rec.isphoto then "photo" else "video") := by
  have hguard : ¬ (truthy rec.isphoto = false ∧ truthy rec.ismovie = false) := by
    rcases h with h | h <;> simp [h]
  unfold validated Medium.validateStep initFields
  simp only
  rw [if_neg hguard]
  split_ifs <;> simp_all

/-- Witness for C4 (amended) at the screenshot+photo record of the spec's
own example: classified clone. -/
theorem C4_species_assignment_witness :
    (truthy (some true) = true ∨ truthy none = true) ∧
    (validated 2 { isphoto := some true, screenshot := some true, path := "/s.png" }).species =
      some (if truthy (some true) then "clone" else if truthy (some true) then "photo" else "video") :=
  ⟨Or.inl rfl,
   C4_species_assignment 2 { isphoto := some true, screenshot := some true, path := "/s.png" }
     (Or.inl rfl)⟩

/-- Claim C7: for every record passing the media-kind check, the
`META_INCOMPLETE` warning (source tag `WARNING_META_NONE`) is emitted iff
one of the five flags is absent; when `ismissing` is truthy exactly one of
`OUT_OF_SYNC` (`iscloudasset` truthy) or `ASSET_MISSING` (source tag
`IS_MISSING`) is emitted, and neither otherwise; and the warnings never set
the error flag — the record errors exactly when its `path` is empty. -/
theorem C7_warning_emission (ndx : Nat) (rec : RawRecord)
    (h : truthy rec.isphoto = true ∨ truthy rec.ismovie = true) :
    ((Msg.warningMetaNone ndx ∈ (validated ndx rec).messages) ↔
      (rec.ismovie = none ∨ rec.isphoto = none ∨ rec.screenshot = none ∨
       rec.ismissing = none ∨ rec.iscloudasset = none)) ∧
    (truthy rec.ismissing = true →
      ((Msg.outOfSync ndx ∈ (validated ndx rec).messages ↔ truthy rec.iscloudasset = true) ∧
       (Msg.isMissing ndx ∈ (validated ndx rec).messages ↔ truthy rec.iscloudasset = false))) ∧
    (truthy rec.ismissing = false →
      Msg.outOfSync ndx ∉ (validated ndx rec).messages ∧
      Msg.isMissing ndx ∉ (validated ndx rec).messages) ∧
    ((validated ndx rec).error = true ↔ rec.path = "") := by
  have hguard : ¬ (truthy rec.isphoto = false ∧ truthy rec.ismovie = false) := by
    rcases h with h | h <;> simp [h]
  unfold validated Medium.validateStep initFields
  simp only
  rw [if_neg hguard]
  split_ifs <;> simp_all

/-! ## Helper lemmas: the constructed state -/

theorem validated_refs (ndx : Nat) (rec : RawRecord) : (validated ndx rec).refs = [] := by
  by_cases hguard : truthy rec.isphoto = false ∧ truthy rec.ismovie = false
  all_goals unfold validated Medium.validateStep initFields
  · simp only
    rw [if_pos hguard]
  · simp only
    rw [if_neg hguard]
    split_ifs <;> rfl

theorem validated_live_rep (ndx : Nat) (rec : RawRecord) : (validated ndx rec).live_rep = "" := by
  by_cases hguard : truthy rec.isphoto = false ∧ truthy rec.ismovie = false
  all_goals unfold validated Medium.validateStep initFields
  · simp only
    rw [if_pos hguard]
  · simp only
    rw [if_neg hguard]
    split_ifs <;> rfl

theorem validated_error_of_guard (ndx : Nat) (rec : RawRecord)
    (h : truthy rec.isphoto = false ∧ truthy rec.ismovie = false) :
    (validated ndx rec).error = true := by
  unfold validated Medium.validateStep initFields
  simp only
  rw [if_pos h]

theorem validated_species_eq (ndx : Nat) (rec : RawRecord)
    (h : ¬ (truthy rec.isphoto = false ∧ truthy rec.ismovie = false)) :
    (validated ndx rec).species =
      some (if truthy rec.screenshot then "clone"
            else if truthy rec.isphoto then "photo" else "video") := by
  unfold validated Medium.validateStep initFields
  simp only
  rw [if_neg h]
  split_ifs <;> simp_all

theorem validated_species_cases (ndx : Nat) (rec : RawRecord)
    (h : (validated ndx rec).error = false) :
    (validated ndx rec).species = some "photo" ∨ (validated ndx rec).species = some "video" ∨
      (validated ndx rec).species = some "clone" := by
  have hg : ¬ (truthy rec.isphoto = false ∧ truthy rec.ismovie = false) := by
    intro hguard
    rw [validated_error_of_guard ndx rec hguard] at h
    exact absurd h (by decide)
  rw [validated_species_eq ndx rec hg]
  split_ifs <;> simp

theorem hashContent_species (fs : FS) (st : MediumState) :
    (Medium.hashContent fs st).species = st.species := by
  unfold Medium.hashContent
  rcases hfs : fs st.path_str with _ | c
  · rfl
  · simp only
    split_ifs <;> rfl

theorem hashContent_live_rep (fs : FS) (st : MediumState) :
    (Medium.hashContent fs st).live_rep = st.live_rep := by
  unfold Medium.hashContent
  rcases hfs : fs st.path_str with _ | c
  · rfl
  · simp only
    split_ifs <;> rfl

theorem hashContent_refs (fs : FS) (st : MediumState) :
    (Medium.hashContent fs st).refs = st.refs := by
  unfold Medium.hashContent
  rcases hfs : fs st.path_str with _ | c
  · rfl
  · simp only
    split_ifs <;> rfl

theorem hashContent_error_false {fs : FS} {st : MediumState}
    (h : (Medium.hashContent fs st).error = false) : st.error = false := by
  unfold Medium.hashContent at h
  rcases hfs : fs st.path_str with _ | c
  all_goals rw [hfs] at h
  · simp at h
  · simp only at h
    split_ifs at h <;> simp_all

theorem mediumInit_fst_error (fs : FS) (ndx : Nat) (rec : RawRecord) (lab : LabelsMap) :
    (mediumInit fs ndx rec lab).1.error =
      if (validated ndx rec).error then (validated ndx rec).error
      else (Medium.hashContent fs (validated ndx rec)).error := by
  unfold mediumInit
  dsimp only
  split_ifs <;> simp_all

theorem mediumInit_fst_refs (fs : FS) (ndx : Nat) (rec : RawRecord) (lab : LabelsMap) :
    (mediumInit fs ndx rec lab).1.refs =
      if (validated ndx rec).error then []
      else if (Medium.hashContent fs (validated ndx rec)).content_rep ≠ "" then
        [mkRef (speciesStr (Medium.hashContent fs (validated ndx rec)))
               (Medium.hashContent fs (validated ndx rec)).content_rep]
      else [] := by
  unfold mediumInit
  dsimp only
  split_ifs <;>
    simp_all [hashContent_live_rep, validated_live_rep, hashContent_refs, validated_refs]

theorem mediumInit_snd (fs : FS) (ndx : Nat) (rec : RawRecord) (lab : LabelsMap) :
    (mediumInit fs ndx rec lab).2 =
      Labels.update lab (mediumInit fs ndx rec lab).1.refs rec.labels := by
  unfold mediumInit
  dsimp only
  split_ifs <;>
    first
      | rfl
      | (rw [validated_refs]
         unfold Labels.update
         simp)

/-- Claim C8: for every record whose primary hash succeeds, every reference
registered in the label index has the exact form
`"{kind}:{digest[0:2]}/{digest}"` with a known kind and a non-empty digest,
and the accumulator is updated with exactly the reference list constructed
once at hash time in `__init__`. -/
theorem C8_reference_shape (fs : FS) (ndx : Nat) (rec : RawRecord) (lab : LabelsMap)
    (h : (mediumInit fs ndx rec lab).1.error = false) :
    (∀ r ∈ (mediumInit fs ndx rec lab).1.refs,
      ∃ kind rep, (kind = "photo" ∨ kind = "video" ∨ kind = "clone" ∨ kind = "livto") ∧
        rep ≠ "" ∧ r = kind ++ ":" ++ pyTake2 rep ++ "/" ++ rep) ∧
    (mediumInit fs ndx rec lab).2 =
      Labels.update lab (mediumInit fs ndx rec lab).1.refs rec.labels := by
  refine ⟨?_, mediumInit_snd fs ndx rec lab⟩
  intro r hr
  rw [mediumInit_fst_error fs ndx rec lab] at h
  by_cases hv : (validated ndx rec).error
  · rw [if_pos hv] at h
    exact absurd h (by simp [hv])
  · rw [if_neg hv] at h
    rw [mediumInit_fst_refs fs ndx rec lab, if_neg hv] at hr
    by_cases hcr : (Medium.hashContent fs (validated ndx rec)).content_rep = ""
    · rw [if_neg (by simp [hcr])] at hr
      simp at hr
    · rw [if_pos (by simp [hcr])] at hr
      simp only [List.mem_singleton] at hr
      refine ⟨speciesStr (Medium.hashContent fs (validated ndx rec)),
              (Medium.hashContent fs (validated ndx rec)).content_rep, ?_, hcr, ?_⟩
      · have hv' : (validated ndx rec).error = false := by
          revert hv
          rcases (validated ndx rec).error with _ | _ <;> simp
        rcases validated_species_cases ndx rec hv' with hs | hs | hs <;>
          · rw [speciesStr, hashContent_species, hs]
            simp
      · rw [hr]
        rfl

/-- The record of the C8 witness: a valid photo with one label. -/
def recW8 : RawRecord := { isphoto := some true, path := "/a.jpg", labels := ["w8"] }

set_option maxRecDepth 100000 in
/-- Witness for C8: the hash-success hypothesis discharged on a concrete
readable file. -/
theorem C8_reference_shape_witness :
    ((mediumInit fsAB 1 recW8 []).1.error = false) ∧
    ((∀ r ∈ (mediumInit fsAB 1 recW8 []).1.refs,
       ∃ kind rep, (kind = "photo" ∨ kind = "video" ∨ kind = "clone" ∨ kind = "livto") ∧
         rep ≠ "" ∧ r = kind ++ ":" ++ pyTake2 rep ++ "/" ++ rep) ∧
     (mediumInit fsAB 1 recW8 []).2 =
       Labels.update [] (mediumInit fsAB 1 recW8 []).1.refs recW8.labels) :=
  ⟨by decide, C8_reference_shape fsAB 1 recW8 [] (by decide)⟩

/-- Claim C5: the serialized label index is a pure function of the set of
(label, reference) associations, not of registration order: any two call
sequences observing the same association set dump identically. -/
theorem C5_label_index_order_independent (cs₁ cs₂ : List (List String × List String))
    (h₁ : ∀ p ∈ assocPairs cs₁, p ∈ assocPairs cs₂)
    (h₂ : ∀ p ∈ assocPairs cs₂, p ∈ assocPairs cs₁) :
    Labels.dumpModel (applyUpdates cs₁) = Labels.dumpModel (applyUpdates cs₂) := by
  refine dumpModel_eq_of_refsOf (labWF_applyUpdates cs₁) (labWF_applyUpdates cs₂) ?_
  intro l x
  rw [mem_refsOf_applyUpdates, mem_refsOf_applyUpdates]
  exact ⟨fun h => h₁ _ h, fun h => h₂ _ h⟩

/-- Witness for C5: registering (refA, labelX) then (refB, labelX) dumps the
same as the reverse registration order. -/
theorem C5_label_index_order_independent_witness :
    ((∀ p ∈ assocPairs [(["refA"], ["labelX"]), (["refB"], ["labelX"])],
        p ∈ assocPairs [(["refB"], ["labelX"]), (["refA"], ["labelX"])]) ∧
     (∀ p ∈ assocPairs [(["refB"], ["labelX"]), (["refA"], ["labelX"])],
        p ∈ assocPairs [(["refA"], ["labelX"]), (["refB"], ["labelX"])])) ∧
    Labels.dumpModel (applyUpdates [(["refA"], ["labelX"]), (["refB"], ["labelX"])]) =
      Labels.dumpModel (applyUpdates [(["refB"], ["labelX"]), (["refA"], ["labelX"])]) :=
  ⟨⟨by decide, by decide⟩,
   C5_label_index_order_independent _ _ (by decide) (by decide)⟩

/-- The NOT_MEDIA record of the C1 failing input (neither flag true). -/
def recNotMedia : RawRecord := { path := "/x.jpg" }

/-- A valid second record that the C1 run never reaches. -/
def recGoodC1 : RawRecord := { isphoto := some true, path := "/a.jpg", labels := ["L"] }

/-- Claim C1 (code bug, failing input): a single NOT_MEDIA record aborts the
whole run.  `dump()` runs `_dump` even for the errored record; with species
`None`, `hash_to_path` raises `ValueError`, which the loop's
`except RuntimeError` does not catch.  The run aborts with nothing written
and never reaches the valid second record (no file, no label, no
`labels.json`). -/
theorem C1_not_media_aborts_run :
    runModel fsAB wokAll [recNotMedia, recGoodC1] =
      { labeling := [], files := [], labels_json := none,
        aborted := some (Exc.valErr "unknown kind=None for rep=") } := by
  decide

/-- The live-photo record of the C2 failing input: a readable primary and a
readable companion. -/
def recLive : RawRecord :=
  { isphoto := some true, path := "/a.jpg", path_live_photo := "/a.mov", labels := ["x"] }

set_option maxRecDepth 100000 in
/-- Claim C2 (code bug, failing input): `_hash_live` is never called, so on
a record with a readable companion no `livto` reference is ever produced
(the label index holds only the primary reference) and the companion
catalog file is written at the empty-digest address
`DB_OUT_ROOT/livto/.json` instead of the companion digest's `livto`
address. -/
theorem C2_companion_never_hashed :
    runModel fsAB wokAll [recLive] =
      { labeling :=
          [("x", ["photo:e3/e3b0c44298fc1c149afbf4c8996fb92427ae41e4649b934ca495991b7852b855"])],
        files :=
          [(["HOME", "Pictures", "describe", "photo", "e3",
             "e3b0c44298fc1c149afbf4c8996fb92427ae41e4649b934ca495991b7852b855.json"], recLive),
           (["HOME", "Pictures", "describe", "livto", ".json"], recLive)],
        labels_json :=
          some [("x", ["photo:e3/e3b0c44298fc1c149afbf4c8996fb92427ae41e4649b934ca495991b7852b855"])],
        aborted := none } := by
  decide

/-- The record of the C3 failing input: a primary path that resolves to no
file. -/
def recGone : RawRecord := { isphoto := some true, path := "/gone.jpg" }

/-- Claim C3 (code bug, failing input): a record whose path does not resolve
yields the hashing error, yet a catalog file IS written for it — `_dump`
runs despite the error flag and writes the record body at the empty-digest
address `DB_OUT_ROOT/photo/.json` before the `RuntimeError` is raised and
caught. -/
theorem C3_hash_error_still_writes :
    runModel fsNone wokAll [recGone] =
      { labeling := [],
        files := [(["HOME", "Pictures", "describe", "photo", ".json"], recGone)],
        labels_json := some [], aborted := none } := by
  decide

/-! ## Helper lemmas: run-level invariant -/

theorem validated_content_rep (ndx : Nat) (rec : RawRecord) :
    (validated ndx rec).content_rep = "" := by
  by_cases hguard : truthy rec.isphoto = false ∧ truthy rec.ismovie = false
  all_goals unfold validated Medium.validateStep initFields
  · simp only
    rw [if_pos hguard]
  · simp only
    rw [if_neg hguard]
    split_ifs <;> rfl

theorem mediumInit_fst_species (fs : FS) (ndx : Nat) (rec : RawRecord) (lab : LabelsMap) :
    (mediumInit fs ndx rec lab).1.species = (validated ndx rec).species := by
  unfold mediumInit
  dsimp only
  split_ifs <;> simp_all [hashContent_species]

theorem mediumInit_fst_content_rep (fs : FS) (ndx : Nat) (rec : RawRecord) (lab : LabelsMap) :
    (mediumInit fs ndx rec lab).1.content_rep =
      if (validated ndx rec).error then ""
      else (Medium.hashContent fs (validated ndx rec)).content_rep := by
  unfold mediumInit
  dsimp only
  split_ifs <;> simp_all [validated_content_rep]

theorem speciesStr_mem_kinds (ndx : Nat) (rec : RawRecord)
    (h : (validated ndx rec).error = false) :
    speciesStr (validated ndx rec) ∈ KINDS_values := by
  rcases validated_species_cases ndx rec h with hs | hs | hs <;>
    simp [speciesStr, hs, KINDS_values]

theorem hash_to_path_livto (x : String) :
    hash_to_path "livto" x = .ok (mkPath "livto" x) := by
  unfold hash_to_path
  rw [if_pos (by decide)]

theorem hash_to_path_of_mem {kind : String} (rep : String) (h : kind ∈ KINDS_values) :
    hash_to_path kind rep = .ok (mkPath kind rep) := by
  unfold hash_to_path
  rw [if_pos h]

theorem dumpStep_writes_primary {wok : WriteOracle} {st : MediumState} {rec : RawRecord}
    {st2 : MediumState} {newFiles : List (PyPath × RawRecord)} {exc : Option Exc} {p : PyPath}
    (hht : hash_to_path (speciesStr st) st.content_rep = .ok p)
    (hds : Medium.dumpStep wok st rec = (st2, newFiles, exc))
    (hexc : exc = none ∨ ∃ d, exc = some (Exc.runErr d)) :
    (p, rec) ∈ newFiles := by
  unfold Medium.dumpStep at hds
  unfold speciesStr at hht hds
  dsimp only at hds
  rw [hht] at hds
  dsimp only at hds
  by_cases hw : wok p
  · rw [if_pos hw] at hds
    by_cases hl : st.path_live_photo ≠ ""
    · rw [if_pos hl, hash_to_path_livto] at hds
      dsimp only at hds
      by_cases hw2 : wok (mkPath "livto" st.live_rep)
      · rw [if_pos hw2] at hds
        have : newFiles = [(p, rec), (mkPath "livto" st.live_rep, rec)] :=
          (congrArg (fun t => t.2.1) hds).symm
        rw [this]
        exact List.mem_cons_self _ _
      · rw [if_neg hw2] at hds
        have : newFiles = [(p, rec)] := (congrArg (fun t => t.2.1) hds).symm
        rw [this]
        exact List.mem_cons_self _ _
    · rw [if_neg hl] at hds
      have : newFiles = [(p, rec)] := (congrArg (fun t => t.2.1) hds).symm
      rw [this]
      exact List.mem_cons_self _ _
  · rw [if_neg hw] at hds
    have hx : exc = some (Exc.osErr p) := (congrArg (fun t => t.2.2) hds).symm
    rcases hexc with he | ⟨d, he⟩ <;> rw [he] at hx <;> simp at hx

/-- Every reference in the accumulator is backed by a catalog file already
written: it was minted as `mkRef kind rep` and `mkPath kind rep` was
written. -/
def refsBacked (lab : LabelsMap) (files : List (PyPath × RawRecord)) : Prop :=
  ∀ l r, r ∈ refsOf lab l → ∃ kind rep recw, r = mkRef kind rep ∧
    (mkPath kind rep, recw) ∈ files

theorem step_backed {fs : FS} {wok : WriteOracle} {n : Nat} {rec : RawRecord}
    {lab lab' : LabelsMap} {st st2 : MediumState} {nf files : List (PyPath × RawRecord)}
    {exc : Option Exc}
    (hmi : mediumInit fs n rec lab = (st, lab'))
    (hds : Medium.dumpStep wok st rec = (st2, nf, exc))
    (hexc : exc = none ∨ ∃ d, exc = some (Exc.runErr d))
    (hb : refsBacked lab files) :
    refsBacked lab' (files ++ nf) := by
  intro l r hr
  have hlab' : lab' = Labels.update lab st.refs rec.labels := by
    have hsnd := mediumInit_snd fs n rec lab
    rw [hmi] at hsnd
    exact hsnd
  rw [hlab'] at hr
  rcases mem_refsOf_update.mp hr with hold | ⟨_, _, _, hnew⟩
  · obtain ⟨kind, rep, recw, hre, hf⟩ := hb l r hold
    exact ⟨kind, rep, recw, hre, List.mem_append_left _ hf⟩
  · have hrefs := mediumInit_fst_refs fs n rec lab
    rw [hmi] at hrefs
    rw [hrefs] at hnew
    by_cases hv : (validated n rec).error
    · rw [if_pos hv] at hnew
      simp at hnew
    · rw [if_neg hv] at hnew
      by_cases hcr : (Medium.hashContent fs (validated n rec)).content_rep = ""
      · rw [if_neg (by simp [hcr])] at hnew
        simp at hnew
      · rw [if_pos (by simp [hcr])] at hnew
        rw [List.mem_singleton] at hnew
        have hv' : (validated n rec).error = false := by
          revert hv
          rcases (validated n rec).error with _ | _ <;> simp
        have hsp : st.species = (validated n rec).species := by
          have hx := mediumInit_fst_species fs n rec lab
          rw [hmi] at hx
          exact hx
        have hcrst : st.content_rep =
            (Medium.hashContent fs (validated n rec)).content_rep := by
          have hx := mediumInit_fst_content_rep fs n rec lab
          rw [hmi] at hx
          rw [hx, if_neg hv]
        have hss : speciesStr st =
            speciesStr (Medium.hashContent fs (validated n rec)) := by
          unfold speciesStr
          rw [hsp, hashContent_species]
        have hsv : speciesStr st = speciesStr (validated n rec) := by
          unfold speciesStr
          rw [hsp]
        have hht : hash_to_path (speciesStr st) st.content_rep =
            .ok (mkPath (speciesStr st) st.content_rep) := by
          apply hash_to_path_of_mem
          rw [hsv]
          exact speciesStr_mem_kinds n rec hv'
        have hwrote := dumpStep_writes_primary hht hds hexc
        refine ⟨speciesStr st, st.content_rep, rec, ?_, List.mem_append_right _ hwrote⟩
        rw [hnew, hss, hcrst]

theorem mainLoop_backed (fs : FS) (wok : WriteOracle) (db : List RawRecord) :
    ∀ (n : Nat) (lab : LabelsMap) (files : List (PyPath × RawRecord)) (m : LabelsMap),
      refsBacked lab files →
      (mainLoop fs wok n lab files db).labels_json = some m →
      ∀ p ∈ m, ∀ r ∈ p.2, ∃ kind rep recw, r = mkRef kind rep ∧
        (mkPath kind rep, recw) ∈ (mainLoop fs wok n lab files db).files := by
  induction db with
  | nil =>
      intro n lab files m hb hm
      simp only [mainLoop] at hm ⊢
      have hm' : Labels.dumpModel lab = m := Option.some.inj hm
      intro p hp r hr
      rw [← hm'] at hp
      unfold Labels.dumpModel at hp
      rw [List.mem_map] at hp
      obtain ⟨k, hk, hpe⟩ := hp
      rw [← hpe] at hr
      have hr' : r ∈ refsOf lab k := by
        have hperm : r ∈ sortStrs (refsOf lab k) := hr
        unfold sortStrs at hperm
        exact (List.perm_insertionSort _ _).mem_iff.mp hperm
      exact hb k r hr'
  | cons rec rest ih =>
      intro n lab files m hb hm
      rcases hmi : mediumInit fs n rec lab with ⟨st, lab'⟩
      rcases hds : Medium.dumpStep wok st rec with ⟨st2, nf, exc⟩
      simp only [mainLoop, hmi, hds] at hm ⊢
      rcases exc with _ | e
      · exact ih (n + 1) lab' (files ++ nf) m (step_backed hmi hds (Or.inl rfl) hb) hm
      · rcases e with d | d | pp
        · simp at hm
        · exact ih (n + 1) lab' (files ++ nf) m
            (step_backed hmi hds (Or.inr ⟨d, rfl⟩) hb) hm
        · simp at hm

/-- The record of the C10 counterexample run: valid, labelled, readable. -/
def recW10 : RawRecord := { isphoto := some true, path := "/a.jpg", labels := ["c10"] }

set_option maxRecDepth 100000 in
/-- Counterexample to C10 as stated: when the catalog-file write fails, the
registration survives in memory (the accumulator still maps the label to
the reference) but the serialized label index that the claim says "may
reference entries for which no catalog file exists" is never produced at
all — the `OSError` is uncaught, the run aborts before `labels.json` is
written, and no file exists. -/
theorem C10_counterexample :
    (runModel fsAB wokFail [recW10]).labels_json = none ∧
    (runModel fsAB wokFail [recW10]).aborted =
      some (Exc.osErr
        ["HOME", "Pictures", "describe", "photo", "e3",
         "e3b0c44298fc1c149afbf4c8996fb92427ae41e4649b934ca495991b7852b855.json"]) ∧
    refsOf (runModel fsAB wokFail [recW10]).labeling "c10" =
      ["photo:e3/e3b0c44298fc1c149afbf4c8996fb92427ae41e4649b934ca495991b7852b855"] ∧
    (runModel fsAB wokFail [recW10]).files = [] := by
  decide

/-- Claim C10 (amended): references and labels are registered in the label
index during construction, before any persistence is attempted, and a
later write failure does not remove them from the in-memory index; but
because a catalog-write failure aborts the run before `labels.json` is
serialized, whenever the label index IS serialized every reference in it
has its catalog file written in the same run. -/
theorem C10_serialized_refs_backed (fs : FS) (wok : WriteOracle) (db : List RawRecord)
    (m : LabelsMap) (h : (runModel fs wok db).labels_json = some m) :
    ∀ p ∈ m, ∀ r ∈ p.2, ∃ kind rep recw, r = mkRef kind rep ∧
      (mkPath kind rep, recw) ∈ (runModel fs wok db).files := by
  unfold runModel at h ⊢
  refine mainLoop_backed fs wok db 1 [] [] m ?_ h
  intro l r hr
  simp [refsOf] at hr

/-- The record of the C10 witness run: a hard EMPTY_PATH error, so the run
completes with an empty serialized index. -/
def recW10e : RawRecord := { isphoto := some true, path := "" }

/-- Witness for C10 (amended): the serialization hypothesis discharged on a
concrete completed run. -/
theorem C10_serialized_refs_backed_witness :
    ((runModel fsNone wokAll [recW10e]).labels_json = some []) ∧
    (∀ p ∈ ([] : LabelsMap), ∀ r ∈ p.2, ∃ kind rep recw, r = mkRef kind rep ∧
      (mkPath kind rep, recw) ∈ (runModel fsNone wokAll [recW10e]).files) :=
  ⟨by decide, C10_serialized_refs_backed fsNone wokAll [recW10e] [] (by decide)⟩

/-- The record of the C7 witness: a photo that is missing and not a cloud
asset, with some flags absent. -/
def recW7 : RawRecord := { isphoto := some true, ismissing := some true, path := "/w7.jpg" }

/-- Witness for C7: the media-check hypothesis discharged at a concrete
record (absent flags, missing, not a cloud asset). -/
theorem C7_warning_emission_witness :
    (truthy recW7.isphoto = true ∨ truthy recW7.ismovie = true) ∧
    (((Msg.warningMetaNone 5 ∈ (validated 5 recW7).messages) ↔
       (recW7.ismovie = none ∨ recW7.isphoto = none ∨ recW7.screenshot = none ∨
        recW7.ismissing = none ∨ recW7.iscloudasset = none)) ∧
     (truthy recW7.ismissing = true →
       ((Msg.outOfSync 5 ∈ (validated 5 recW7).messages ↔ truthy recW7.iscloudasset = true) ∧
        (Msg.isMissing 5 ∈ (validated 5 recW7).messages ↔ truthy recW7.iscloudasset = false))) ∧
     (truthy recW7.ismissing = false →
       Msg.outOfSync 5 ∉ (validated 5 recW7).messages ∧
       Msg.isMissing 5 ∉ (validated 5 recW7).messages) ∧
     ((validated 5 recW7).error = true ↔ recW7.path = "")) :=
  ⟨Or.inl rfl, C7_warning_emission 5 recW7 (Or.inl rfl)⟩
